import Mathlib

/-!
Verification of the interaction event-routing and manipulation subsystem of
the XR-Landscape repository (SpectaclesInteractionKit): the `Interactable`
hover/trigger/drag state machine and the `InteractableManipulation`
translate/rotate/scale solver.

The embedding is shallow: each TypeScript method is translated to a Lean
function over explicit state, and event emission is modelled as the list of
events the method invokes, in invocation order.  Interactor input types are
32-bit bitmasks, modelled as `Nat` with `|||` for the OR-in and
`m &&& (MASK32 ^^^ t)` for the 32-bit AND-NOT (`m &= ~t` in the source).
Numbers are modelled as rationals.
-/

namespace XRL

/-- Bitmask of all 32 bits set, the JavaScript 32-bit integer context in which
the source applies the complement `~t`. -/
def MASK32 : Nat := 4294967295

/-- Bitwise AND-NOT within 32 bits: the embedding of `m &= ~t` on interactor
input-type bitmasks (`InteractorInputType` values are well below 2^32). -/
def andNot (m t : Nat) : Nat := m &&& (MASK32 ^^^ t)

/-- Events an `Interactable` can invoke (src/unnamed/part_003, the
`Event` fields of the class), in the granularity the claims need. -/
inductive IEvent where
  | hoverEnterAgg
  | interactorHoverEnter
  | hoverUpdateAgg
  | interactorHoverExit
  | hoverExitAgg
  | triggerStartAgg
  | interactorTriggerStart
  | triggerUpdateAgg
  | interactorTriggerEnd
  | triggerEndAgg
  | triggerCanceledEvt
  | dragStartEvt
  | dragUpdateEvt
  | dragEndEvt
deriving DecidableEq, Repr

/-- The fields of `InteractableEventArgs` that the `Interactable` methods
read: the calling interactor input type and its drag vectors (`null`
modelled as `none`).  Payload components are rationals. -/
structure EventArgs where
  inputType : Nat
  currentDragVector : Option (ℚ × ℚ × ℚ)
  previousDragVector : Option (ℚ × ℚ × ℚ)
deriving DecidableEq, Repr

namespace Interactable

/-- Embedding of `Interactable.hoverEnter` (part_003 lines 373-387): if the
hovering bitmask is `None` the aggregate `onHoverEnter` fires first, then the
interactor bit is OR-ed in and `onInteractorHoverEnter` fires.  Returns the
new bitmask and the events invoked, in order. -/
def hoverEnter (hovering : Nat) (args : EventArgs) : Nat × List IEvent :=
  ( hovering ||| args.inputType,
    (if hovering = 0 then [IEvent.hoverEnterAgg] else []) ++ [IEvent.interactorHoverEnter] )

/-- Embedding of `Interactable.hoverUpdate` (part_003 lines 393-401): a no-op
when the hovering bitmask is `None`, otherwise `onHoverUpdate` fires. -/
def hoverUpdate (hovering : Nat) (_args : EventArgs) : Nat × List IEvent :=
  if hovering = 0 then (hovering, []) else (hovering, [IEvent.hoverUpdateAgg])

/-- Embedding of `Interactable.hoverExit` (part_003 lines 407-422): the
interactor bit is cleared first, `onInteractorHoverExit` always fires, and
the aggregate `onHoverExit` fires only if the bitmask became `None`. -/
def hoverExit (hovering : Nat) (args : EventArgs) : Nat × List IEvent :=
  let cleared := andNot hovering args.inputType
  ( cleared,
    [IEvent.interactorHoverExit] ++ (if cleared = 0 then [IEvent.hoverExitAgg] else []) )

/-- Embedding of `Interactable.dragStartOrUpdate` (part_003 lines 511-531):
nothing when `currentDragVector` is null; `onDragStart` when
`previousDragVector` is null; otherwise `onDragUpdate`. -/
def dragStartOrUpdateEvents (args : EventArgs) : List IEvent :=
  match args.currentDragVector with
  | none => []
  | some _ =>
    match args.previousDragVector with
    | none => [IEvent.dragStartEvt]
    | some _ => [IEvent.dragUpdateEvt]

/-- Embedding of `Interactable.dragEnd` (part_003 lines 537-550): `onDragEnd`
fires exactly when `previousDragVector` is non-null. -/
def dragEndEvents (args : EventArgs) : List IEvent :=
  match args.previousDragVector with
  | none => []
  | some _ => [IEvent.dragEndEvt]

/-- Embedding of `Interactable.triggerStart` (part_003 lines 428-443),
mirroring `hoverEnter` on the trigger bitmask. -/
def triggerStart (triggering : Nat) (args : EventArgs) : Nat × List IEvent :=
  ( triggering ||| args.inputType,
    (if triggering = 0 then [IEvent.triggerStartAgg] else []) ++ [IEvent.interactorTriggerStart] )

/-- Embedding of `Interactable.triggerUpdate` (part_003 lines 449-455): the
method has no guard on the trigger bitmask; it invokes `onTriggerUpdate`
unconditionally and then evaluates `dragStartOrUpdate`. -/
def triggerUpdate (triggering : Nat) (args : EventArgs) : Nat × List IEvent :=
  (triggering, IEvent.triggerUpdateAgg :: dragStartOrUpdateEvents args)

/-- Embedding of `Interactable.triggerEnd` (part_003 lines 461-477): clears
the interactor bit, fires `onInteractorTriggerEnd`, fires the aggregate
`onTriggerEnd` if the bitmask became `None`, then evaluates `dragEnd`. -/
def triggerEnd (triggering : Nat) (args : EventArgs) : Nat × List IEvent :=
  let cleared := andNot triggering args.inputType
  ( cleared,
    [IEvent.interactorTriggerEnd]
      ++ (if cleared = 0 then [IEvent.triggerEndAgg] else [])
      ++ dragEndEvents args )

/-- Embedding of `Interactable.triggerCanceled` (part_003 lines 483-491): the
entire trigger bitmask is reset to `None` (not only the calling interactor
bit), `onTriggerCanceled` fires, then `dragEnd` is evaluated. -/
def triggerCanceled (_triggering : Nat) (args : EventArgs) : Nat × List IEvent :=
  (0, IEvent.triggerCanceledEvt :: dragEndEvents args)

/-- One call of a hover sequence: `hoverEnter` or `hoverExit` from an
interactor of the given input type. -/
inductive HoverCall where
  | enter (inputType : Nat)
  | exit (inputType : Nat)
deriving DecidableEq, Repr

/-- Argument record carrying only an input type, with null drag vectors. -/
def plainArgs (t : Nat) : EventArgs := ⟨t, none, none⟩

/-- Dispatch one hover call on the hovering bitmask. -/
def hoverStep (hovering : Nat) : HoverCall → Nat × List IEvent
  | HoverCall.enter t => hoverEnter hovering (plainArgs t)
  | HoverCall.exit t => hoverExit hovering (plainArgs t)

/-- Concatenated event trace of a sequence of hover calls started at the
given bitmask. -/
def hoverTrace (hovering : Nat) : List HoverCall → List IEvent
  | [] => []
  | c :: cs => (hoverStep hovering c).2 ++ hoverTrace (hoverStep hovering c).1 cs

/-- Number of steps of the run at which the bitmask transitions from `None`
to non-`None`. -/
def upTransCount (hovering : Nat) : List HoverCall → Nat
  | [] => 0
  | c :: cs =>
    (if hovering = 0 ∧ (hoverStep hovering c).1 ≠ 0 then 1 else 0)
      + upTransCount (hoverStep hovering c).1 cs

/-- Number of steps of the run at which the bitmask transitions from
non-`None` to `None`. -/
def downTransCount (hovering : Nat) : List HoverCall → Nat
  | [] => 0
  | c :: cs =>
    (if hovering ≠ 0 ∧ (hoverStep hovering c).1 = 0 then 1 else 0)
      + downTransCount (hoverStep hovering c).1 cs

/-- Every `enter` call of the sequence carries a non-`None` input type (an
actual interactor source). -/
def entersNonzero : List HoverCall → Bool
  | [] => true
  | HoverCall.enter t :: cs => (t ≠ 0 : Bool) && entersNonzero cs
  | HoverCall.exit _ :: cs => entersNonzero cs

/-- Along the run, no `hoverExit` call arrives while the hovering bitmask is
already `None` (exits are matched by earlier enters). -/
def exitsGuarded (hovering : Nat) : List HoverCall → Bool
  | [] => true
  | HoverCall.enter t :: cs => exitsGuarded (hoverStep hovering (HoverCall.enter t)).1 cs
  | HoverCall.exit t :: cs =>
    (hovering ≠ 0 : Bool) && exitsGuarded (hoverStep hovering (HoverCall.exit t)).1 cs

end Interactable

/-- Configuration flags of `InteractableManipulation` read by its trigger
handlers: the component `enabled` flag and the three capability toggles
behind `canTranslate` / `canRotate` / `canScale`. -/
structure MConfig where
  enabled : Bool
  enableTranslation : Bool
  enableRotation : Bool
  enableScale : Bool
deriving DecidableEq, Repr

namespace InteractableManipulation

/-- Embedding of `canTranslate` (part_004 lines 855-857). -/
def canTranslate (c : MConfig) : Bool := c.enableTranslation

/-- Embedding of `canRotate` (part_004 lines 869-871). -/
def canRotate (c : MConfig) : Bool := c.enableRotation

/-- Embedding of `canScale` (part_004 lines 883-885). -/
def canScale (c : MConfig) : Bool := c.enableScale

/-- Fields of an `Interactor` read by the `getTriggeringInteractors` filter:
whether its `currentInteractable` is this interactable and whether its
`currentTrigger` is `InteractorTriggerType.None`. -/
structure MInteractor where
  currentInteractableIsThis : Bool
  currentTriggerIsNone : Bool
deriving DecidableEq, Repr

/-- Embedding of `getTriggeringInteractors` (part_004 lines 1309-1329): the
interaction manager returns the interactors matching the triggering bitmask
(an external collaborator, so its response is a parameter here); they are
filtered to those whose current interactable is this one and whose trigger
is active.  `Array.filter` never returns null, so the null fallback branch
of the source is dead and the filter result is returned as is — in
particular its length is not capped. -/
def getTriggeringInteractors (fromManager : List MInteractor) : List MInteractor :=
  fromManager.filter (fun i => i.currentInteractableIsThis && !i.currentTriggerIsNone)

/-- Observable actions of the manipulation component in emission order: the
public start/update/end events, the caching of the interactors list
(`this.interactors = currentInteractors`), the recomputation of start values
(`updateStartValues`, which resets the three one-euro filters and recaptures
`startTransform` and the grab offsets), the per-frame solver invocations,
and the unsupported-count warning log. -/
inductive MAction where
  | translationStart
  | rotationStart
  | scaleStart
  | manipulationStart
  | translationEnd
  | rotationEnd
  | scaleEnd
  | manipulationEnd
  | translationUpdate
  | rotationUpdate
  | manipulationUpdate
  | setInteractors (n : Nat)
  | recomputeStartValues
  | warnUnsupported (n : Nat)
  | callSingleInteractorTransform
  | callDualInteractorsTransform
deriving DecidableEq, Repr

/-- Embedding of `invokeEvents` (part_004 lines 1331-1375): each of the four
nullable event slots fires only when non-null and its capability flag is on;
the manipulation slot fires when any of the three capabilities is on. -/
def invokeEvents (c : MConfig)
    (translateEvent rotationEvent scaleEvent manipulationEvent : Option MAction) :
    List MAction :=
  (if canTranslate c then translateEvent.toList else [])
    ++ (if canRotate c then rotationEvent.toList else [])
    ++ (if canScale c then scaleEvent.toList else [])
    ++ (if canTranslate c || canRotate c || canScale c then manipulationEvent.toList else [])

/-- Mutable state of the component that the trigger handlers read and write:
the cached list of driving interactors. -/
structure MState where
  interactors : List MInteractor
deriving DecidableEq, Repr

/-- Embedding of `onTriggerToggle` (part_004 lines 1233-1289): compares the
previous interactor count with the current one; while manipulating, it
emits the End event set when the count changed while already manipulating,
caches the current interactors, recomputes start values and emits the Start
event set; when the current set is empty it emits the End event set (if it
was manipulating) and caches; otherwise it only caches. -/
def onTriggerToggle (c : MConfig) (s : MState) (current : List MInteractor) :
    MState × List MAction :=
  if !c.enabled || (!canTranslate c && !canRotate c && !canScale c) then (s, [])
  else
    let previousInteractorsCount := s.interactors.length
    let currentInteractorsCount := current.length
    let wasManipulating := 0 < previousInteractorsCount
    let isManipulating := 0 < currentInteractorsCount
    let countChanged := previousInteractorsCount ≠ currentInteractorsCount
    let wasScaling := previousInteractorsCount = 2
    let isScaling := currentInteractorsCount = 2
    if isManipulating then
      ( ⟨current⟩,
        (if wasManipulating ∧ countChanged then
            invokeEvents c (some MAction.translationEnd) (some MAction.rotationEnd)
              (if wasScaling then some MAction.scaleEnd else none) (some MAction.manipulationEnd)
          else [])
          ++ [MAction.setInteractors currentInteractorsCount, MAction.recomputeStartValues]
          ++ invokeEvents c (some MAction.translationStart) (some MAction.rotationStart)
              (if isScaling then some MAction.scaleStart else none) (some MAction.manipulationStart) )
    else if wasManipulating then
      ( ⟨current⟩,
        invokeEvents c (some MAction.translationEnd) (some MAction.rotationEnd)
            (if wasScaling then some MAction.scaleEnd else none) (some MAction.manipulationEnd)
          ++ [MAction.setInteractors currentInteractorsCount] )
    else
      (⟨current⟩, [MAction.setInteractors currentInteractorsCount])

/-- Embedding of `onTriggerUpdate` (part_004 lines 1291-1307): dispatches to
the single- or dual-interactor solver for counts 1 and 2 and then fires the
update events; any other count only logs a warning and returns. -/
def onTriggerUpdate (c : MConfig) (s : MState) : List MAction :=
  if !c.enabled || (!canTranslate c && !canRotate c && !canScale c) then []
  else if s.interactors.length = 1 then
    [MAction.callSingleInteractorTransform]
      ++ invokeEvents c (some MAction.translationUpdate) (some MAction.rotationUpdate)
          none (some MAction.manipulationUpdate)
  else if s.interactors.length = 2 then
    [MAction.callDualInteractorsTransform]
      ++ invokeEvents c (some MAction.translationUpdate) (some MAction.rotationUpdate)
          none (some MAction.manipulationUpdate)
  else
    [MAction.warnUnsupported s.interactors.length]

end InteractableManipulation

/-- Three-component vector over the rationals, the engine vec3 as the
solvers use it. -/
structure Vec3 where
  x : ℚ
  y : ℚ
  z : ℚ
deriving DecidableEq, Repr

namespace Vec3

/-- Componentwise addition (vec3.add). -/
def add (v w : Vec3) : Vec3 := ⟨v.x + w.x, v.y + w.y, v.z + w.z⟩

/-- Componentwise subtraction (vec3.sub). -/
def sub (v w : Vec3) : Vec3 := ⟨v.x - w.x, v.y - w.y, v.z - w.z⟩

/-- Multiplication of every component by one scalar (vec3.uniformScale). -/
def uniformScale (v : Vec3) (s : ℚ) : Vec3 := ⟨v.x * s, v.y * s, v.z * s⟩

end Vec3

/-- JavaScript number semantics for the values the scale clamp computes:
finite rationals, the two infinities and NaN.  Negative zero is not
distinguished from zero; the operations below cover exactly the cases the
clamp pipeline can produce (finite arithmetic, a nonzero value over zero
giving a signed infinity, zero over zero and zero times infinity giving
NaN, comparisons false on NaN). -/
inductive JSNum where
  | nan
  | posInf
  | negInf
  | num (q : ℚ)
deriving DecidableEq, Repr

namespace JSNum

/-- NaN test. -/
def isNaN : JSNum → Bool
  | nan => true
  | _ => false

/-- JavaScript strict less-than: false whenever either side is NaN. -/
def lt : JSNum → JSNum → Bool
  | nan, _ => false
  | _, nan => false
  | negInf, negInf => false
  | negInf, _ => true
  | _, negInf => false
  | posInf, _ => false
  | num _, posInf => true
  | num a, num b => decide (a < b)

/-- JavaScript multiplication: NaN propagates, zero times an infinity is
NaN, otherwise signs multiply. -/
def mul : JSNum → JSNum → JSNum
  | nan, _ => nan
  | _, nan => nan
  | posInf, posInf => posInf
  | posInf, negInf => negInf
  | negInf, posInf => negInf
  | negInf, negInf => posInf
  | posInf, num q => if q = 0 then nan else if 0 < q then posInf else negInf
  | num q, posInf => if q = 0 then nan else if 0 < q then posInf else negInf
  | negInf, num q => if q = 0 then nan else if 0 < q then negInf else posInf
  | num q, negInf => if q = 0 then nan else if 0 < q then negInf else posInf
  | num a, num b => num (a * b)

/-- JavaScript division: NaN propagates, an infinity over an infinity is
NaN, a nonzero finite value over zero is a signed infinity, zero over zero
is NaN, a finite value over an infinity is zero. -/
def div : JSNum → JSNum → JSNum
  | nan, _ => nan
  | _, nan => nan
  | posInf, posInf => nan
  | posInf, negInf => nan
  | negInf, posInf => nan
  | negInf, negInf => nan
  | posInf, num q => if 0 ≤ q then posInf else negInf
  | negInf, num q => if 0 ≤ q then negInf else posInf
  | num _, posInf => num 0
  | num _, negInf => num 0
  | num a, num b =>
    if b = 0 then (if a = 0 then nan else if 0 < a then posInf else negInf)
    else num (a / b)

/-- JavaScript Math.min of two values: NaN when either side is NaN, else
the smaller. -/
def min2 (a b : JSNum) : JSNum :=
  if a.isNaN || b.isNaN then nan else if lt b a then b else a

end JSNum

/-- Vector of JavaScript numbers, the value actually held by the engine
vec3 the scale pipeline writes. -/
structure JSVec3 where
  x : JSNum
  y : JSNum
  z : JSNum
deriving DecidableEq, Repr

/-- Injection of an exact rational vector into JavaScript numbers. -/
def Vec3.toJS (v : Vec3) : JSVec3 := ⟨JSNum.num v.x, JSNum.num v.y, JSNum.num v.z⟩

/-- Componentwise uniform scaling in JavaScript arithmetic
(vec3.uniformScale). -/
def JSVec3.uniformScale (v : JSVec3) (s : JSNum) : JSVec3 := ⟨v.x.mul s, v.y.mul s, v.z.mul s⟩

namespace InteractableManipulation

/-- Embedding of `clampUniformScale` (part_004 lines 1677-1711) over
JavaScript number semantics: the minimum over the axes of the ratios of the
input scale against the min and against the max scale is computed; a
min-ratio below 1 rescales the whole vector up by the single scalar
1/minRatio, then a max-ratio above 1 rescales it down by the single scalar
1/maxRatio.  A zero input scale makes the min-ratio zero, so the rescale
computes 1/0 = Infinity and then 0 times Infinity = NaN, as the source
does. -/
def clampUniformScaleJS (scale minScale maxScale : JSVec3) : JSVec3 :=
  let ratioMin := JSNum.min2 (JSNum.min2 (scale.x.div minScale.x) (scale.y.div minScale.y))
    (scale.z.div minScale.z)
  let ratioMax := JSNum.min2 (JSNum.min2 (scale.x.div maxScale.x) (scale.y.div maxScale.y))
    (scale.z.div maxScale.z)
  let afterMin :=
    if JSNum.lt ratioMin (JSNum.num 1) then scale.uniformScale ((JSNum.num 1).div ratioMin)
    else scale
  if JSNum.lt (JSNum.num 1) ratioMax then afterMin.uniformScale ((JSNum.num 1).div ratioMax)
  else afterMin

/-- Whether `clampUniformScaleJS` took a rescaling branch.  The source
guards `onScaleLimitReached` with `newScale !== finalScale`, a reference
comparison, which holds exactly when some branch allocated a new vector. -/
def clampUniformScaleChangedJS (scale minScale maxScale : JSVec3) : Bool :=
  let ratioMin := JSNum.min2 (JSNum.min2 (scale.x.div minScale.x) (scale.y.div minScale.y))
    (scale.z.div minScale.z)
  let ratioMax := JSNum.min2 (JSNum.min2 (scale.x.div maxScale.x) (scale.y.div maxScale.y))
    (scale.z.div maxScale.z)
  JSNum.lt ratioMin (JSNum.num 1) || JSNum.lt (JSNum.num 1) ratioMax

/-- Embedding of `setScale` (part_004 lines 1713-1739) including the
useFilter branch: min and max scale are the original local scale times the
two configured factors, the proposal is clamped, `onScaleLimitReached`
fires when a rescaling branch ran, and the written value is the clamped
scale — passed through the scale filter when useFilter is on.  The filter
(OneEuroFilterVec3.filter with its internal state and the sample time) is
an external component whose implementation is not among the repository
sources, so it enters as an opaque function.  Returns `none` when scaling
is disabled, otherwise the written scale paired with whether the limit
event fired. -/
def setScaleJS (canScaleFlag useFilterFlag : Bool) (scaleFilter : JSVec3 → JSVec3)
    (originalLocalScale : Vec3) (minimumScaleFactor maximumScaleFactor : ℚ)
    (newScale : JSVec3) : Option (JSVec3 × Bool) :=
  if !canScaleFlag then none
  else
    let minScale := Vec3.toJS (originalLocalScale.uniformScale minimumScaleFactor)
    let maxScale := Vec3.toJS (originalLocalScale.uniformScale maximumScaleFactor)
    let finalScale := clampUniformScaleJS newScale minScale maxScale
    let changed := clampUniformScaleChangedJS newScale minScale maxScale
    some ((if useFilterFlag then scaleFilter finalScale else finalScale), changed)

/-- Embedding of the scale branch of `dualInteractorsTransform` (part_004
lines 1568-1587): guarded by `canScale` and a non-zero
`initialInteractorDistance`, the proposed local scale is
`initialObjectScale` scaled by the uniform factor `1 + (dualDistance −
initialInteractorDistance) / initialInteractorDistance`; `dualDistance`,
the current distance between the two start points, enters as a scalar. -/
def dualProposedScale (canScaleFlag : Bool) (initialObjectScale : Vec3)
    (initialInteractorDistance dualDistance : ℚ) : Option Vec3 :=
  if canScaleFlag = true ∧ initialInteractorDistance ≠ 0 then
    some (initialObjectScale.uniformScale
      (1 + (dualDistance - initialInteractorDistance) / initialInteractorDistance))
  else none

end InteractableManipulation

/-- Response of the external interaction manager in which three interactors
(for example left hand, right hand and mobile) are all triggering this
interactable. -/
def threeTriggering : List InteractableManipulation.MInteractor :=
  [⟨true, false⟩, ⟨true, false⟩, ⟨true, false⟩]


namespace InteractableManipulation

/-- Per-frame interactor snapshot fields read by the solvers and their
validity check; a null field is `none`, `isActive` is the liveness check. -/
structure Snapshot where
  startPoint : Option Vec3
  orientation : Option (ℚ × ℚ × ℚ × ℚ)
  direction : Option Vec3
  distanceToTarget : Option ℚ
  isActive : Bool
deriving Repr

/-- Embedding of `isInteractorValid` (part_004 lines 1443-1452): the
interactor and its start point, orientation, direction and distance must be
non-null and the interactor active. -/
def isInteractorValid (i : Snapshot) : Bool :=
  i.startPoint.isSome && i.orientation.isSome && i.direction.isSome
    && i.distanceToTarget.isSome && i.isActive

/-- Transform writes and deferred scale events one solver frame applies, in
application order. -/
inductive WAction where
  | writePosition
  | writeRotation
  | writeScale
  | scaleUpdateEvent
deriving DecidableEq, Repr

/-- Embedding of the control flow of `singleInteractorTransform` (part_004
lines 1454-1505): an invalid interactor logs and returns before any write;
otherwise translation (when enabled) writes the position in both the Direct
and the Indirect branch, and rotation (when enabled) writes the rotation
for Direct targeting only. -/
def singleInteractorTransformWrites (c : MConfig) (isDirect : Bool) (i : Snapshot) :
    List WAction :=
  if !isInteractorValid i then []
  else
    (if c.enableTranslation then [WAction.writePosition] else [])
      ++ (if canRotate c && isDirect then [WAction.writeRotation] else [])

/-- Embedding of the control flow of `dualInteractorsTransform` (part_004
lines 1507-1588): the validity check at lines 1508-1510 only logs and does
not return, so the frame is skipped exactly when a start point is null
(lines 1519-1522; the null result of `getDualInteractorDirection` occurs in
the same case); with both start points present the rotation, translation
and scale updates all proceed, substituting zero-vector fallbacks for any
other missing field.  The scale block runs under `canScale` and a non-zero
initial interactor distance and fires `onScaleUpdate` after `setScale`. -/
def dualInteractorsTransformWrites (c : MConfig) (i1 i2 : Snapshot)
    (initialInteractorDistance : ℚ) : List WAction :=
  if i1.startPoint.isNone || i2.startPoint.isNone then []
  else
    (if canRotate c then [WAction.writeRotation] else [])
      ++ (if c.enableTranslation then [WAction.writePosition] else [])
      ++ (if canScale c = true ∧ initialInteractorDistance ≠ 0 then
            [WAction.writeScale, WAction.scaleUpdateEvent]
          else [])

end InteractableManipulation

/-- Fully populated interactor snapshot. -/
def validSnapshot : InteractableManipulation.Snapshot :=
  ⟨some ⟨0, 0, 0⟩, some (1, 0, 0, 0), some ⟨0, 0, 1⟩, some 10, true⟩

/-- Snapshot whose direction is null but whose start point is present: it
fails `isInteractorValid`, yet the dual solver still has both start
points. -/
def missingDirectionSnapshot : InteractableManipulation.Snapshot :=
  ⟨some ⟨1, 0, 0⟩, some (1, 0, 0, 0), none, some 10, true⟩

/-- Snapshot with a null start point. -/
def noStartPointSnapshot : InteractableManipulation.Snapshot :=
  ⟨none, some (1, 0, 0, 0), some ⟨0, 0, 1⟩, some 10, true⟩

/-- Purely imaginary quaternion carrying a vector. -/
def toQuat (v : Vec3) : Quaternion ℚ := ⟨0, v.x, v.y, v.z⟩

/-- Rotation of a vector by a quaternion through conjugation q v q⁻¹, the
engine quat.multiplyVec3 for unit quaternions, over the rationals. -/
def quatMulVec3 (q : Quaternion ℚ) (v : Vec3) : Vec3 :=
  let p := q * toQuat v * q⁻¹
  ⟨p.imI, p.imJ, p.imK⟩

/-- World transform fields the single-Direct solver reads and writes. -/
structure TransformQ where
  position : Vec3
  rotation : Quaternion ℚ

/-- Start values captured by `updateStartValues` for a single Direct
interactor: the start transform snapshot and the grab offsets. -/
structure StartValues where
  startPosition : Vec3
  startRotation : Quaternion ℚ
  offsetPosition : Vec3
  offsetRotation : Quaternion ℚ

/-- Embedding of the single-interactor Direct branch of `updateStartValues`
(part_004 lines 1118-1141): `startTransform` is snapshotted from the
manipulated transform, `offsetPosition = startTransform.position −
interactorStartPoint` and `offsetRotation = inverse(interactorOrientation) *
startTransform.rotation`. -/
def updateStartValuesSingleDirect (world : TransformQ) (startPoint : Vec3)
    (orientation : Quaternion ℚ) : StartValues :=
  { startPosition := world.position
    startRotation := world.rotation
    offsetPosition := world.position.sub startPoint
    offsetRotation := orientation⁻¹ * world.rotation }

/-- Embedding of `limitQuatRotation` (part_004 lines 1431-1441): the source
converts the quaternion to Euler angles, zeroes them when rotation is
disabled, and converts back; on rotations the Euler round trip is the
identity map of the represented rotation and zeroed angles give the
identity quaternion, which is how the two branches are modelled. -/
def limitQuatRotation (canRotateFlag : Bool) (q : Quaternion ℚ) : Quaternion ℚ :=
  if canRotateFlag then q else 1

/-- Embedding of `updatePosition` (part_004 lines 1590-1611) on the
unfiltered path: a locked axis keeps the current world coordinate, the
other axes take the solved position, and the result is written. -/
def updatePosition (enableX enableY enableZ : Bool) (currentWorld newPosition : Vec3) : Vec3 :=
  ⟨if enableX then newPosition.x else currentWorld.x,
   if enableY then newPosition.y else currentWorld.y,
   if enableZ then newPosition.z else currentWorld.z⟩

/-- Position solved by `singleInteractorTransform` for Direct targeting
(part_004 lines 1461-1483): the interactor start point plus the grab
offset, the latter rotated by `limitRotation * inverse(startRotation)` when
rotation is enabled. -/
def singleInteractorTransformDirectPosition (canRotateFlag : Bool) (sv : StartValues)
    (startPoint : Vec3) (orientation : Quaternion ℚ) : Vec3 :=
  let limitRotation := (limitQuatRotation canRotateFlag orientation) * sv.offsetRotation
  startPoint.add
    (if canRotateFlag then
        quatMulVec3 (limitRotation * sv.startRotation⁻¹) sv.offsetPosition
      else sv.offsetPosition)

/-- Grab followed by an immediate solve with the interactor unmoved: start
values are captured from the world transform (after the filter reset of
`updateStartValues`), then the Direct position is solved with the same
start point and orientation and written through `updatePosition`
(unfiltered, the filters having just been reset). -/
def grabThenSolveSingleDirect (canRotateFlag enableTranslationFlag eX eY eZ : Bool)
    (world : TransformQ) (startPoint : Vec3) (orientation : Quaternion ℚ) : Vec3 :=
  let sv := updateStartValuesSingleDirect world startPoint orientation
  if enableTranslationFlag then
    updatePosition eX eY eZ world.position
      (singleInteractorTransformDirectPosition canRotateFlag sv startPoint orientation)
  else world.position


/-- OR with a nonzero mask is nonzero. -/
theorem lor_ne_zero_of_right {m t : Nat} (ht : t ≠ 0) : m ||| t ≠ 0 := by
  intro h
  apply ht
  apply Nat.zero_of_testBit_eq_false
  intro i
  have hbit := congrArg (fun n => n.testBit i) h
  simp only [Nat.testBit_lor, Nat.zero_testBit, Bool.or_eq_false_iff] at hbit
  exact hbit.2

/-- Core counting lemma for claim C1: along any hover-call run whose enter
calls carry non-`None` input types and whose exit calls never arrive on an
already-`None` bitmask, the aggregate enter and exit events are counted
exactly by the bitmask transitions. -/
theorem hover_agg_counts (cs : List Interactable.HoverCall) : ∀ m : Nat,
    Interactable.entersNonzero cs = true → Interactable.exitsGuarded m cs = true →
    (Interactable.hoverTrace m cs).count IEvent.hoverEnterAgg = Interactable.upTransCount m cs ∧
    (Interactable.hoverTrace m cs).count IEvent.hoverExitAgg = Interactable.downTransCount m cs := by
  induction cs with
  | nil =>
    intro m _ _
    simp [Interactable.hoverTrace, Interactable.upTransCount, Interactable.downTransCount]
  | cons c cs ih =>
    intro m hnz hg
    cases c with
    | enter t =>
      rw [Interactable.entersNonzero, Bool.and_eq_true] at hnz
      rcases hnz with ⟨ht, hrest⟩
      have ht : t ≠ 0 := of_decide_eq_true ht
      have hup : m ||| t ≠ 0 := lor_ne_zero_of_right ht
      rw [Interactable.exitsGuarded] at hg
      obtain ⟨ih1, ih2⟩ := ih (m ||| t) hrest hg
      have htrace : Interactable.hoverTrace m (Interactable.HoverCall.enter t :: cs)
          = ((if m = 0 then [IEvent.hoverEnterAgg] else []) ++ [IEvent.interactorHoverEnter])
            ++ Interactable.hoverTrace (m ||| t) cs := rfl
      have hupc : Interactable.upTransCount m (Interactable.HoverCall.enter t :: cs)
          = (if m = 0 ∧ m ||| t ≠ 0 then 1 else 0)
            + Interactable.upTransCount (m ||| t) cs := rfl
      have hdownc : Interactable.downTransCount m (Interactable.HoverCall.enter t :: cs)
          = (if m ≠ 0 ∧ m ||| t = 0 then 1 else 0)
            + Interactable.downTransCount (m ||| t) cs := rfl
      rw [htrace, hupc, hdownc]
      by_cases hm : m = 0
      · subst hm
        simp only [Nat.zero_or] at ih1 ih2
        refine ⟨?_, ?_⟩ <;> (simp [List.count_append, ht, ih1, ih2]; try omega)
      · refine ⟨?_, ?_⟩ <;> simp [List.count_append, hm, hup, ih1, ih2]
    | exit t =>
      rw [Interactable.entersNonzero] at hnz
      rw [Interactable.exitsGuarded, Bool.and_eq_true] at hg
      rcases hg with ⟨hm, hg⟩
      have hm : m ≠ 0 := of_decide_eq_true hm
      obtain ⟨ih1, ih2⟩ := ih (XRL.andNot m t) hnz hg
      have htrace : Interactable.hoverTrace m (Interactable.HoverCall.exit t :: cs)
          = ([IEvent.interactorHoverExit]
              ++ (if XRL.andNot m t = 0 then [IEvent.hoverExitAgg] else []))
            ++ Interactable.hoverTrace (XRL.andNot m t) cs := rfl
      have hupc : Interactable.upTransCount m (Interactable.HoverCall.exit t :: cs)
          = (if m = 0 ∧ XRL.andNot m t ≠ 0 then 1 else 0)
            + Interactable.upTransCount (XRL.andNot m t) cs := rfl
      have hdownc : Interactable.downTransCount m (Interactable.HoverCall.exit t :: cs)
          = (if m ≠ 0 ∧ XRL.andNot m t = 0 then 1 else 0)
            + Interactable.downTransCount (XRL.andNot m t) cs := rfl
      rw [htrace, hupc, hdownc]
      by_cases hc : XRL.andNot m t = 0
      · rw [hc] at ih1 ih2
        refine ⟨?_, ?_⟩ <;> (simp [List.count_append, hc, hm, ih1, ih2]; try omega)
      · refine ⟨?_, ?_⟩ <;> simp [List.count_append, hc, hm, ih1, ih2]

/-- C1, as stated, is false on the code: a `hoverExit` call that arrives
while the hovering bitmask is already `None` (here: one `exit` call with no
prior `enter`) fires the aggregate `onHoverExit` although the bitmask never
transitioned from non-`None` to `None`. -/
theorem C1_counterexample :
    (Interactable.hoverTrace 0 [Interactable.HoverCall.exit 1]).count IEvent.hoverExitAgg
        ≠ Interactable.downTransCount 0 [Interactable.HoverCall.exit 1] ∧
    (Interactable.hoverTrace 0 [Interactable.HoverCall.exit 1]).count IEvent.hoverExitAgg = 1 ∧
    Interactable.downTransCount 0 [Interactable.HoverCall.exit 1] = 0 := by
  decide

/-- C1 amended: for every sequence of hoverEnter and hoverExit calls whose
enter calls carry non-`None` input types and in which no hoverExit arrives
while the hovering bitmask is already `None`, the aggregate `onHoverEnter`
fires exactly once per transition of the bitmask from `None` to non-`None`
and the aggregate `onHoverExit` exactly once per transition from non-`None`
to `None`; neither fires at any other point (the counts agree on every such
sequence, hence on every prefix). -/
theorem C1_hover_aggregate_exactly_once_per_transition
    (m : Nat) (cs : List Interactable.HoverCall)
    (hnz : Interactable.entersNonzero cs = true)
    (hg : Interactable.exitsGuarded m cs = true) :
    (Interactable.hoverTrace m cs).count IEvent.hoverEnterAgg
        = Interactable.upTransCount m cs ∧
    (Interactable.hoverTrace m cs).count IEvent.hoverExitAgg
        = Interactable.downTransCount m cs :=
  hover_agg_counts cs m hnz hg

/-- Witness for the amended C1: two hands hover and leave; one up transition,
one down transition, one aggregate enter, one aggregate exit. -/
theorem C1_hover_aggregate_exactly_once_per_transition_witness :
    Interactable.entersNonzero
        [Interactable.HoverCall.enter 1, Interactable.HoverCall.enter 2,
         Interactable.HoverCall.exit 1, Interactable.HoverCall.exit 2] = true ∧
    Interactable.exitsGuarded 0
        [Interactable.HoverCall.enter 1, Interactable.HoverCall.enter 2,
         Interactable.HoverCall.exit 1, Interactable.HoverCall.exit 2] = true ∧
    ((Interactable.hoverTrace 0
        [Interactable.HoverCall.enter 1, Interactable.HoverCall.enter 2,
         Interactable.HoverCall.exit 1, Interactable.HoverCall.exit 2]).count IEvent.hoverEnterAgg
      = Interactable.upTransCount 0
        [Interactable.HoverCall.enter 1, Interactable.HoverCall.enter 2,
         Interactable.HoverCall.exit 1, Interactable.HoverCall.exit 2] ∧
     (Interactable.hoverTrace 0
        [Interactable.HoverCall.enter 1, Interactable.HoverCall.enter 2,
         Interactable.HoverCall.exit 1, Interactable.HoverCall.exit 2]).count IEvent.hoverExitAgg
      = Interactable.downTransCount 0
        [Interactable.HoverCall.enter 1, Interactable.HoverCall.enter 2,
         Interactable.HoverCall.exit 1, Interactable.HoverCall.exit 2]) :=
  ⟨by decide, by decide,
    C1_hover_aggregate_exactly_once_per_transition 0
      [Interactable.HoverCall.enter 1, Interactable.HoverCall.enter 2,
       Interactable.HoverCall.exit 1, Interactable.HoverCall.exit 2]
      (by decide) (by decide)⟩

/-- C5: from every trigger bitmask state, also with several interactor-type
bits set, `triggerCanceled` resets the whole bitmask to `None`, emits
`onTriggerCanceled`, and then emits `onDragEnd` exactly when the calling
interactor `previousDragVector` is non-null. -/
theorem C5_triggerCanceled_resets_whole_bitmask (m : Nat) (args : EventArgs) :
    (Interactable.triggerCanceled m args).1 = 0 ∧
    (Interactable.triggerCanceled m args).2 =
      IEvent.triggerCanceledEvt ::
        (if args.previousDragVector.isSome then [IEvent.dragEndEvt] else []) := by
  refine ⟨rfl, ?_⟩
  cases h : args.previousDragVector <;>
    simp [Interactable.triggerCanceled, Interactable.dragEndEvents, h]

/-- C6, as stated, is false on the code: `triggerUpdate` called while the
trigger bitmask is `None` is not a no-op — it emits `onTriggerUpdate`
(part_003 lines 449-455 have no guard corresponding to the one in
`hoverUpdate`, lines 393-396). -/
theorem C6_counterexample :
    (Interactable.triggerUpdate 0 (Interactable.plainArgs 1)).2 = [IEvent.triggerUpdateAgg] ∧
    (Interactable.triggerUpdate 0 (Interactable.plainArgs 1)).2 ≠ [] := by
  decide

/-- C6 amended: `triggerUpdate` does not mirror the `hoverUpdate` guard; it
emits `onTriggerUpdate` and evaluates drag unconditionally, for every value
of the trigger bitmask including `None`, while `hoverUpdate` with a `None`
hovering bitmask emits nothing. -/
theorem C6_triggerUpdate_has_no_none_guard (m : Nat) (args : EventArgs) :
    (Interactable.triggerUpdate m args).1 = m ∧
    (Interactable.triggerUpdate m args).2 =
      IEvent.triggerUpdateAgg :: Interactable.dragStartOrUpdateEvents args ∧
    (Interactable.hoverUpdate 0 args).2 = [] :=
  ⟨rfl, rfl, rfl⟩

/-- C2: whenever the triggering-interactor count changes between the
distinct non-empty counts 1 and 2 in either direction within one
`onTriggerToggle` invocation, the handler first emits the End event set for
the outgoing configuration (with scale-end only when the outgoing count was
2), then caches the interactors and recomputes start values, then emits the
Start event set for the incoming configuration (with scale-start only when
the incoming count is 2); the trace never contains a zero-interactor cache
action, so no intermediate Idle state occurs, and the End set always
separates the two Start sets. -/
theorem C2_direct_one_two_transitions_pair_end_then_start
    (c : MConfig) (s : InteractableManipulation.MState)
    (current : List InteractableManipulation.MInteractor)
    (hen : c.enabled = true)
    (hcap : (InteractableManipulation.canTranslate c || InteractableManipulation.canRotate c
        || InteractableManipulation.canScale c) = true)
    (hcounts : (s.interactors.length = 1 ∧ current.length = 2) ∨
        (s.interactors.length = 2 ∧ current.length = 1)) :
    (InteractableManipulation.onTriggerToggle c s current).2 =
      InteractableManipulation.invokeEvents c (some InteractableManipulation.MAction.translationEnd)
          (some InteractableManipulation.MAction.rotationEnd)
          (if s.interactors.length = 2 then some InteractableManipulation.MAction.scaleEnd else none)
          (some InteractableManipulation.MAction.manipulationEnd)
        ++ [InteractableManipulation.MAction.setInteractors current.length,
            InteractableManipulation.MAction.recomputeStartValues]
        ++ InteractableManipulation.invokeEvents c (some InteractableManipulation.MAction.translationStart)
            (some InteractableManipulation.MAction.rotationStart)
            (if current.length = 2 then some InteractableManipulation.MAction.scaleStart else none)
            (some InteractableManipulation.MAction.manipulationStart) ∧
    InteractableManipulation.MAction.setInteractors 0
        ∉ (InteractableManipulation.onTriggerToggle c s current).2 ∧
    (InteractableManipulation.onTriggerToggle c s current).1.interactors = current := by
  rcases c with ⟨en, tr, ro, sc⟩
  rcases hcounts with ⟨h1, h2⟩ | ⟨h1, h2⟩ <;>
    cases en <;> cases tr <;> cases ro <;> cases sc <;>
      simp_all [InteractableManipulation.onTriggerToggle, InteractableManipulation.invokeEvents,
        InteractableManipulation.canTranslate, InteractableManipulation.canRotate,
        InteractableManipulation.canScale, h1, h2]

/-- Witness for C2: a fully enabled configuration going from one interactor
to two in a single invocation. -/
theorem C2_direct_one_two_transitions_pair_end_then_start_witness :
    ((⟨true, true, true, true⟩ : MConfig).enabled = true) ∧
    ((InteractableManipulation.canTranslate ⟨true, true, true, true⟩
        || InteractableManipulation.canRotate ⟨true, true, true, true⟩
        || InteractableManipulation.canScale ⟨true, true, true, true⟩) = true) ∧
    ((InteractableManipulation.MState.mk [⟨true, false⟩]).interactors.length = 1 ∧
      ([⟨true, false⟩, ⟨true, false⟩] : List InteractableManipulation.MInteractor).length = 2) ∧
    (InteractableManipulation.onTriggerToggle ⟨true, true, true, true⟩ ⟨[⟨true, false⟩]⟩
        [⟨true, false⟩, ⟨true, false⟩]).2 =
      [InteractableManipulation.MAction.translationEnd,
       InteractableManipulation.MAction.rotationEnd,
       InteractableManipulation.MAction.manipulationEnd,
       InteractableManipulation.MAction.setInteractors 2,
       InteractableManipulation.MAction.recomputeStartValues,
       InteractableManipulation.MAction.translationStart,
       InteractableManipulation.MAction.rotationStart,
       InteractableManipulation.MAction.scaleStart,
       InteractableManipulation.MAction.manipulationStart] := by
  have h := C2_direct_one_two_transitions_pair_end_then_start ⟨true, true, true, true⟩
    ⟨[⟨true, false⟩]⟩ [⟨true, false⟩, ⟨true, false⟩] (by decide) (by decide)
    (Or.inl ⟨by decide, by decide⟩)
  exact ⟨by decide, by decide, ⟨by decide, by decide⟩, by rw [h.1]; decide⟩

/-- C10: every `onTriggerToggle` invocation that observes a non-empty
current triggering set recomputes start values (resetting the three filters
and recapturing the start transform and grab offsets) and emits the full
Start event set — also when the count is unchanged; the End event set is
emitted beforehand exactly when the count changed while already
manipulating, so with an unchanged count the trace contains Start events and
no End event at all. -/
theorem C10_toggle_reemits_start_even_without_count_change
    (c : MConfig) (s : InteractableManipulation.MState)
    (current : List InteractableManipulation.MInteractor)
    (hen : c.enabled = true)
    (hcap : (InteractableManipulation.canTranslate c || InteractableManipulation.canRotate c
        || InteractableManipulation.canScale c) = true)
    (hcur : 0 < current.length) :
    (InteractableManipulation.onTriggerToggle c s current).2 =
      (if 0 < s.interactors.length ∧ s.interactors.length ≠ current.length then
          InteractableManipulation.invokeEvents c (some InteractableManipulation.MAction.translationEnd)
            (some InteractableManipulation.MAction.rotationEnd)
            (if s.interactors.length = 2 then some InteractableManipulation.MAction.scaleEnd else none)
            (some InteractableManipulation.MAction.manipulationEnd)
        else [])
        ++ [InteractableManipulation.MAction.setInteractors current.length,
            InteractableManipulation.MAction.recomputeStartValues]
        ++ InteractableManipulation.invokeEvents c (some InteractableManipulation.MAction.translationStart)
            (some InteractableManipulation.MAction.rotationStart)
            (if current.length = 2 then some InteractableManipulation.MAction.scaleStart else none)
            (some InteractableManipulation.MAction.manipulationStart) ∧
    (s.interactors.length = current.length →
      ∀ a ∈ (InteractableManipulation.onTriggerToggle c s current).2,
        a ≠ InteractableManipulation.MAction.translationEnd ∧
        a ≠ InteractableManipulation.MAction.rotationEnd ∧
        a ≠ InteractableManipulation.MAction.scaleEnd ∧
        a ≠ InteractableManipulation.MAction.manipulationEnd) ∧
    (InteractableManipulation.onTriggerToggle c s current).1.interactors = current := by
  rcases c with ⟨en, tr, ro, sc⟩
  cases en <;> cases tr <;> cases ro <;> cases sc <;>
    refine ⟨?_, ?_, ?_⟩ <;>
      simp_all [InteractableManipulation.onTriggerToggle, InteractableManipulation.invokeEvents,
        InteractableManipulation.canTranslate, InteractableManipulation.canRotate,
        InteractableManipulation.canScale, hcur] <;>
      rintro - a (⟨-, rfl⟩ | rfl) <;> decide

/-- Witness for C10: a second trigger-start with the interactor count still
1 re-runs start values and the Start events with no End event before them. -/
theorem C10_toggle_reemits_start_even_without_count_change_witness :
    ((⟨true, true, true, true⟩ : MConfig).enabled = true) ∧
    ((InteractableManipulation.canTranslate ⟨true, true, true, true⟩
        || InteractableManipulation.canRotate ⟨true, true, true, true⟩
        || InteractableManipulation.canScale ⟨true, true, true, true⟩) = true) ∧
    (0 < ([⟨true, false⟩] : List InteractableManipulation.MInteractor).length) ∧
    (InteractableManipulation.onTriggerToggle ⟨true, true, true, true⟩ ⟨[⟨true, false⟩]⟩
        [⟨true, false⟩]).2 =
      [InteractableManipulation.MAction.setInteractors 1,
       InteractableManipulation.MAction.recomputeStartValues,
       InteractableManipulation.MAction.translationStart,
       InteractableManipulation.MAction.rotationStart,
       InteractableManipulation.MAction.manipulationStart] := by
  have h := C10_toggle_reemits_start_even_without_count_change ⟨true, true, true, true⟩
    ⟨[⟨true, false⟩]⟩ [⟨true, false⟩] (by decide) (by decide) (by decide)
  exact ⟨by decide, by decide, by decide, by rw [h.1]; decide⟩

/-- C9, as stated, is false on the code: `onTriggerToggle` caches whatever
list `getTriggeringInteractors` returns without capping its length, so with
three simultaneously triggering interactors the reachable state has an
interactors list of length 3, outside {0, 1, 2}. -/
theorem C9_counterexample :
    (InteractableManipulation.onTriggerToggle ⟨true, true, true, true⟩ ⟨[]⟩
        (InteractableManipulation.getTriggeringInteractors threeTriggering)).1.interactors.length = 3 ∧
    ¬((InteractableManipulation.onTriggerToggle ⟨true, true, true, true⟩ ⟨[]⟩
        (InteractableManipulation.getTriggeringInteractors threeTriggering)).1.interactors.length = 0 ∨
      (InteractableManipulation.onTriggerToggle ⟨true, true, true, true⟩ ⟨[]⟩
        (InteractableManipulation.getTriggeringInteractors threeTriggering)).1.interactors.length = 1 ∨
      (InteractableManipulation.onTriggerToggle ⟨true, true, true, true⟩ ⟨[]⟩
        (InteractableManipulation.getTriggeringInteractors threeTriggering)).1.interactors.length = 2) := by
  decide

/-- C9 amended: the interactors list is cached uncapped and can exceed
length 2; whenever its length is not 1 or 2, the per-frame
`onTriggerUpdate` performs no solver call and emits no update event, only
the unsupported-count warning, and any later `onTriggerToggle` replaces the
list with the current one, so a supported count resumes updates. -/
theorem C9_more_than_two_interactors_skip_frame
    (c : MConfig) (s : InteractableManipulation.MState)
    (hen : c.enabled = true)
    (hcap : (InteractableManipulation.canTranslate c || InteractableManipulation.canRotate c
        || InteractableManipulation.canScale c) = true)
    (hlen1 : s.interactors.length ≠ 1) (hlen2 : s.interactors.length ≠ 2) :
    InteractableManipulation.onTriggerUpdate c s =
      [InteractableManipulation.MAction.warnUnsupported s.interactors.length] ∧
    (∀ current : List InteractableManipulation.MInteractor,
      (InteractableManipulation.onTriggerToggle c s current).1.interactors = current) := by
  rcases c with ⟨en, tr, ro, sc⟩
  constructor
  · cases en <;> cases tr <;> cases ro <;> cases sc <;>
      simp_all [InteractableManipulation.onTriggerUpdate,
        InteractableManipulation.canTranslate, InteractableManipulation.canRotate,
        InteractableManipulation.canScale]
  · intro current
    cases en <;> cases tr <;> cases ro <;> cases sc <;>
      simp_all [InteractableManipulation.onTriggerToggle,
        InteractableManipulation.canTranslate, InteractableManipulation.canRotate,
        InteractableManipulation.canScale] <;>
      split_ifs <;> rfl

/-- Witness for the amended C9: with three cached interactors the frame
update is only a warning. -/
theorem C9_more_than_two_interactors_skip_frame_witness :
    ((⟨true, true, true, true⟩ : MConfig).enabled = true) ∧
    ((InteractableManipulation.canTranslate ⟨true, true, true, true⟩
        || InteractableManipulation.canRotate ⟨true, true, true, true⟩
        || InteractableManipulation.canScale ⟨true, true, true, true⟩) = true) ∧
    ((InteractableManipulation.MState.mk threeTriggering).interactors.length ≠ 1) ∧
    ((InteractableManipulation.MState.mk threeTriggering).interactors.length ≠ 2) ∧
    InteractableManipulation.onTriggerUpdate ⟨true, true, true, true⟩ ⟨threeTriggering⟩ =
      [InteractableManipulation.MAction.warnUnsupported
        (InteractableManipulation.MState.mk threeTriggering).interactors.length] :=
  ⟨by decide, by decide, by decide, by decide,
    (C9_more_than_two_interactors_skip_frame ⟨true, true, true, true⟩ ⟨threeTriggering⟩
      (by decide) (by decide) (by decide) (by decide)).1⟩


/-- Division of finite JavaScript numbers with a nonzero denominator is
exact rational division. -/
theorem JSNum.div_num_num (a b : ℚ) (hb : b ≠ 0) :
    (JSNum.num a).div (JSNum.num b) = JSNum.num (a / b) := by
  simp [JSNum.div, hb]

/-- Math.min of two finite JavaScript numbers is the rational minimum. -/
theorem JSNum.min2_num (a b : ℚ) :
    JSNum.min2 (JSNum.num a) (JSNum.num b) = JSNum.num (min a b) := by
  by_cases h : b < a
  · simp [JSNum.min2, JSNum.isNaN, JSNum.lt, h, min_eq_right (le_of_lt h)]
  · simp [JSNum.min2, JSNum.isNaN, JSNum.lt, h, min_eq_left (not_lt.mp h)]

/-- Clamping a proposal that is a positive multiple of the original scale:
every intermediate value is finite, the result is the original scale times
the clamp of that multiple into [minimumScaleFactor, maximumScaleFactor],
and a rescaling branch is taken exactly when the multiple lay outside the
interval. -/
theorem clampUniformScaleJS_proportional (orig : Vec3) (minF maxF t : ℚ)
    (hx : 0 < orig.x) (hy : 0 < orig.y) (hz : 0 < orig.z)
    (hminF : 0 < minF) (hmaxF : 0 < maxF) (hmm : minF ≤ maxF) (ht : 0 < t) :
    InteractableManipulation.clampUniformScaleJS (Vec3.toJS (orig.uniformScale t))
        (Vec3.toJS (orig.uniformScale minF)) (Vec3.toJS (orig.uniformScale maxF))
      = Vec3.toJS (orig.uniformScale (min maxF (max minF t))) ∧
    InteractableManipulation.clampUniformScaleChangedJS (Vec3.toJS (orig.uniformScale t))
        (Vec3.toJS (orig.uniformScale minF)) (Vec3.toJS (orig.uniformScale maxF))
      = (decide (t < minF) || decide (maxF < t)) := by
  have hx0 : orig.x ≠ 0 := ne_of_gt hx
  have hy0 : orig.y ≠ 0 := ne_of_gt hy
  have hz0 : orig.z ≠ 0 := ne_of_gt hz
  have ht0 : t ≠ 0 := ne_of_gt ht
  have hminF0 : minF ≠ 0 := ne_of_gt hminF
  have hmaxF0 : maxF ≠ 0 := ne_of_gt hmaxF
  have hrq : t / minF ≠ 0 := div_ne_zero ht0 hminF0
  have hrq2 : t / maxF ≠ 0 := div_ne_zero ht0 hmaxF0
  have e1 : (JSNum.num (orig.x * t)).div (JSNum.num (orig.x * minF)) = JSNum.num (t / minF) := by
    rw [JSNum.div_num_num _ _ (mul_ne_zero hx0 hminF0), mul_div_mul_left t minF hx0]
  have e2 : (JSNum.num (orig.y * t)).div (JSNum.num (orig.y * minF)) = JSNum.num (t / minF) := by
    rw [JSNum.div_num_num _ _ (mul_ne_zero hy0 hminF0), mul_div_mul_left t minF hy0]
  have e3 : (JSNum.num (orig.z * t)).div (JSNum.num (orig.z * minF)) = JSNum.num (t / minF) := by
    rw [JSNum.div_num_num _ _ (mul_ne_zero hz0 hminF0), mul_div_mul_left t minF hz0]
  have e4 : (JSNum.num (orig.x * t)).div (JSNum.num (orig.x * maxF)) = JSNum.num (t / maxF) := by
    rw [JSNum.div_num_num _ _ (mul_ne_zero hx0 hmaxF0), mul_div_mul_left t maxF hx0]
  have e5 : (JSNum.num (orig.y * t)).div (JSNum.num (orig.y * maxF)) = JSNum.num (t / maxF) := by
    rw [JSNum.div_num_num _ _ (mul_ne_zero hy0 hmaxF0), mul_div_mul_left t maxF hy0]
  have e6 : (JSNum.num (orig.z * t)).div (JSNum.num (orig.z * maxF)) = JSNum.num (t / maxF) := by
    rw [JSNum.div_num_num _ _ (mul_ne_zero hz0 hmaxF0), mul_div_mul_left t maxF hz0]
  have einv1 : (JSNum.num 1).div (JSNum.num (t / minF)) = JSNum.num (1 / (t / minF)) :=
    JSNum.div_num_num 1 (t / minF) hrq
  have einv2 : (JSNum.num 1).div (JSNum.num (t / maxF)) = JSNum.num (1 / (t / maxF)) :=
    JSNum.div_num_num 1 (t / maxF) hrq2
  have hlt : (t / minF < 1) ↔ t < minF := div_lt_one hminF
  have hgt : (1 < t / maxF) ↔ maxF < t := one_lt_div hmaxF
  unfold InteractableManipulation.clampUniformScaleJS
    InteractableManipulation.clampUniformScaleChangedJS
  simp only [Vec3.toJS, Vec3.uniformScale, e1, e2, e3, e4, e5, e6, JSNum.min2_num, min_self,
    einv1, einv2, JSVec3.uniformScale]
  by_cases h1 : t < minF
  · have h2 : ¬ maxF < t := not_lt.mpr (le_of_lt (lt_of_lt_of_le h1 hmm))
    have hc1 : JSNum.lt (JSNum.num (t / minF)) (JSNum.num 1) = true := by
      simp [JSNum.lt, hlt.mpr h1]
    have hc2 : JSNum.lt (JSNum.num 1) (JSNum.num (t / maxF)) = false := by
      have hn : t / maxF ≤ 1 := (div_le_one hmaxF).mpr (not_lt.mp h2)
      simp [JSNum.lt, hn]
    rw [hc1, hc2]
    simp only [if_true, if_false, Bool.false_eq_true, Bool.true_eq_false]
    constructor
    · simp only [JSNum.mul, JSVec3.mk.injEq, JSNum.num.injEq,
        max_eq_left (le_of_lt h1), min_eq_right hmm]
      refine ⟨?_, ?_, ?_⟩ <;> (field_simp; ring)
    · simp [h1, h2]
  · by_cases h2 : maxF < t
    · have hc1 : JSNum.lt (JSNum.num (t / minF)) (JSNum.num 1) = false := by
        have hn : 1 ≤ t / minF := (one_le_div hminF).mpr (not_lt.mp h1)
        simp [JSNum.lt, hn]
      have hc2 : JSNum.lt (JSNum.num 1) (JSNum.num (t / maxF)) = true := by
        simp [JSNum.lt, hgt.mpr h2]
      rw [hc1, hc2]
      simp only [if_true, if_false, Bool.false_eq_true, Bool.true_eq_false]
      constructor
      · simp only [JSNum.mul, JSVec3.mk.injEq, JSNum.num.injEq,
          max_eq_right (not_lt.mp h1), min_eq_left (le_of_lt h2)]
        refine ⟨?_, ?_, ?_⟩ <;> (field_simp; ring)
      · simp [h1, h2]
    · have hc1 : JSNum.lt (JSNum.num (t / minF)) (JSNum.num 1) = false := by
        have hn : 1 ≤ t / minF := (one_le_div hminF).mpr (not_lt.mp h1)
        simp [JSNum.lt, hn]
      have hc2 : JSNum.lt (JSNum.num 1) (JSNum.num (t / maxF)) = false := by
        have hn : t / maxF ≤ 1 := (div_le_one hmaxF).mpr (not_lt.mp h2)
        simp [JSNum.lt, hn]
      rw [hc1, hc2]
      simp only [if_true, if_false, Bool.false_eq_true, Bool.true_eq_false]
      constructor
      · rw [max_eq_right (not_lt.mp h1), min_eq_right (not_lt.mp h2)]
      · simp [h1, h2]

/-- C3, as stated, is false on the code in two ways this input exhibits.
Two interactors meeting at one point give current distance 0, so the scale
branch proposes the zero vector (an in-scope arbitrary distance delta);
`clampUniformScale` then computes minRatio = 0, rescales by 1/0 = Infinity
and 0 times Infinity = NaN, and `setScale` writes a NaN scale — not the
proposal clamped into [minimumScaleFactor, maximumScaleFactor] times the
original scale (the in-bounds vector (1, 1, 1) for this input), so the
claimed per-axis bounds do not hold there. -/
theorem C3_counterexample :
    InteractableManipulation.dualProposedScale true ⟨1, 1, 1⟩ 10 0 = some ⟨0, 0, 0⟩ ∧
    InteractableManipulation.setScaleJS true false (fun v => v) ⟨1, 1, 1⟩ 1 2
        (Vec3.toJS (Vec3.mk 0 0 0))
      = some (⟨JSNum.nan, JSNum.nan, JSNum.nan⟩, true) ∧
    (⟨JSNum.nan, JSNum.nan, JSNum.nan⟩ : JSVec3) ≠ Vec3.toJS (Vec3.mk 1 1 1) := by
  refine ⟨?_, ?_, by decide⟩
  · rw [InteractableManipulation.dualProposedScale]
    norm_num [Vec3.uniformScale]
  · norm_num [InteractableManipulation.setScaleJS, InteractableManipulation.clampUniformScaleJS,
      InteractableManipulation.clampUniformScaleChangedJS, JSNum.div, JSNum.mul, JSNum.min2,
      JSNum.lt, JSNum.isNaN, Vec3.toJS, JSVec3.uniformScale, Vec3.uniformScale]

/-- C3 amended: for proposals that are a positive multiple t of the
original local scale (a positive current interactor distance), `setScale`
clamps uniformly: on the unfiltered path the applied scale is the proposal
rescaled by the single scalar clamp(t)/t, equal to the original scale times
the clamp of t into [minimumScaleFactor, maximumScaleFactor] and within
those bounds on every axis, and `onScaleLimitReached` fires exactly when
clamping altered the proposal; with useFilter on (the default) the written
value is the one-euro scale filter applied to that same clamped value, not
the clamped value itself.  At current distance exactly 0 the source writes
a NaN scale instead (see the counterexample). -/
theorem C3_setScale_clamps_uniformly_on_positive_unfiltered_path
    (f : JSVec3 → JSVec3) (orig : Vec3) (minF maxF t : ℚ)
    (hx : 0 < orig.x) (hy : 0 < orig.y) (hz : 0 < orig.z)
    (hminF : 0 < minF) (hmaxF : 0 < maxF) (hmm : minF ≤ maxF) (ht : 0 < t) :
    InteractableManipulation.setScaleJS true false f orig minF maxF
        (Vec3.toJS (orig.uniformScale t))
      = some (Vec3.toJS (orig.uniformScale (min maxF (max minF t))),
              decide (t < minF) || decide (maxF < t)) ∧
    InteractableManipulation.setScaleJS true true f orig minF maxF
        (Vec3.toJS (orig.uniformScale t))
      = some (f (Vec3.toJS (orig.uniformScale (min maxF (max minF t)))),
              decide (t < minF) || decide (maxF < t)) ∧
    orig.uniformScale (min maxF (max minF t))
      = (orig.uniformScale t).uniformScale (min maxF (max minF t) / t) ∧
    (orig.x * minF ≤ (orig.uniformScale (min maxF (max minF t))).x ∧
      (orig.uniformScale (min maxF (max minF t))).x ≤ orig.x * maxF) ∧
    (orig.y * minF ≤ (orig.uniformScale (min maxF (max minF t))).y ∧
      (orig.uniformScale (min maxF (max minF t))).y ≤ orig.y * maxF) ∧
    (orig.z * minF ≤ (orig.uniformScale (min maxF (max minF t))).z ∧
      (orig.uniformScale (min maxF (max minF t))).z ≤ orig.z * maxF) ∧
    ((decide (t < minF) || decide (maxF < t)) = true
      ↔ orig.uniformScale (min maxF (max minF t)) ≠ orig.uniformScale t) := by
  have hx0 : orig.x ≠ 0 := ne_of_gt hx
  have ht0 : t ≠ 0 := ne_of_gt ht
  obtain ⟨hval, hflag⟩ := clampUniformScaleJS_proportional orig minF maxF t hx hy hz
    hminF hmaxF hmm ht
  have hcmin : minF ≤ min maxF (max minF t) := le_min hmm (le_max_left minF t)
  have hcmax : min maxF (max minF t) ≤ maxF := min_le_left maxF (max minF t)
  refine ⟨?_, ?_, ?_, ⟨?_, ?_⟩, ⟨?_, ?_⟩, ⟨?_, ?_⟩, ?_, ?_⟩
  · rw [InteractableManipulation.setScaleJS]
    simp only [Bool.not_true, Bool.false_eq_true, if_false, hval, hflag, if_true]
  · rw [InteractableManipulation.setScaleJS]
    simp only [Bool.not_true, Bool.false_eq_true, if_false, hval, hflag, if_true]
  · simp only [Vec3.uniformScale, Vec3.mk.injEq]
    refine ⟨?_, ?_, ?_⟩ <;> (field_simp; ring)
  · simpa [Vec3.uniformScale] using mul_le_mul_of_nonneg_left hcmin (le_of_lt hx)
  · simpa [Vec3.uniformScale] using mul_le_mul_of_nonneg_left hcmax (le_of_lt hx)
  · simpa [Vec3.uniformScale] using mul_le_mul_of_nonneg_left hcmin (le_of_lt hy)
  · simpa [Vec3.uniformScale] using mul_le_mul_of_nonneg_left hcmax (le_of_lt hy)
  · simpa [Vec3.uniformScale] using mul_le_mul_of_nonneg_left hcmin (le_of_lt hz)
  · simpa [Vec3.uniformScale] using mul_le_mul_of_nonneg_left hcmax (le_of_lt hz)
  · intro hor
    rw [Bool.or_eq_true, decide_eq_true_eq, decide_eq_true_eq] at hor
    rcases hor with h1 | h2
    · have hc : min maxF (max minF t) = minF := by
        rw [max_eq_left (le_of_lt h1), min_eq_right hmm]
      rw [hc]
      intro heq
      have hcx := congrArg Vec3.x heq
      simp only [Vec3.uniformScale] at hcx
      exact absurd (mul_left_cancel₀ hx0 hcx).symm (ne_of_lt h1)
    · have hc : min maxF (max minF t) = maxF := by
        rw [max_eq_right (le_of_lt (lt_of_le_of_lt hmm h2)), min_eq_left (le_of_lt h2)]
      rw [hc]
      intro heq
      have hcx := congrArg Vec3.x heq
      simp only [Vec3.uniformScale] at hcx
      exact absurd (mul_left_cancel₀ hx0 hcx) (ne_of_lt h2)
  · intro hne
    by_cases h1 : t < minF
    · simp [h1]
    · by_cases h2 : maxF < t
      · simp [h2]
      · exfalso
        apply hne
        rw [max_eq_right (not_lt.mp h1), min_eq_right (not_lt.mp h2)]

/-- Witness for the amended C3: original scale one, factors [1, 2],
proposal three times the original; the unfiltered applied scale is clamped
to twice the original and the limit event fires. -/
theorem C3_setScale_clamps_uniformly_on_positive_unfiltered_path_witness :
    ((0:ℚ) < 1 ∧ (0:ℚ) < 1 ∧ (0:ℚ) < 1 ∧ (0:ℚ) < 1 ∧ (0:ℚ) < 2 ∧ (1:ℚ) ≤ 2 ∧ (0:ℚ) < 3) ∧
    InteractableManipulation.setScaleJS true false (fun v => v) ⟨1, 1, 1⟩ 1 2
        (Vec3.toJS (Vec3.uniformScale ⟨1, 1, 1⟩ 3))
      = some (Vec3.toJS (Vec3.uniformScale ⟨1, 1, 1⟩ (min 2 (max 1 3))),
              decide ((3:ℚ) < 1) || decide ((2:ℚ) < 3)) :=
  ⟨⟨by decide, by decide, by decide, by decide, by decide, by decide, by decide⟩,
    (C3_setScale_clamps_uniformly_on_positive_unfiltered_path (fun v => v) ⟨1, 1, 1⟩ 1 2 3
      (by decide) (by decide) (by decide) (by decide) (by decide) (by decide) (by decide)).1⟩

/-- C7: with a non-zero initial interactor distance the dual-interactor
scale branch proposes exactly the initial object scale times the uniform
factor 1 + (dualDistance − initialDistance) / initialDistance; in
particular a grab at distance 10 moved to distance 20 doubles a unit scale
on every axis before clamping. -/
theorem C7_dual_scale_factor (s0 : Vec3) (d0 d : ℚ) (h : d0 ≠ 0) :
    InteractableManipulation.dualProposedScale true s0 d0 d
      = some (s0.uniformScale (1 + (d - d0) / d0)) ∧
    InteractableManipulation.dualProposedScale true ⟨1, 1, 1⟩ 10 20 = some ⟨2, 2, 2⟩ := by
  constructor
  · simp [InteractableManipulation.dualProposedScale, h]
  · rw [InteractableManipulation.dualProposedScale]
    norm_num [Vec3.uniformScale]

/-- Witness for C7: the 10 to 20 centimetre doubling scenario itself. -/
theorem C7_dual_scale_factor_witness :
    ((10:ℚ) ≠ 0) ∧
    InteractableManipulation.dualProposedScale true ⟨1, 1, 1⟩ 10 20
      = some (Vec3.uniformScale ⟨1, 1, 1⟩ (1 + (20 - 10) / 10)) :=
  ⟨by decide, (C7_dual_scale_factor ⟨1, 1, 1⟩ 10 20 (by decide)).1⟩


/-- Conjugation by the identity quaternion is the identity map. -/
theorem quatMulVec3_one (v : Vec3) : quatMulVec3 1 v = v := by
  simp [quatMulVec3, toQuat]

/-- Adding back a subtracted base point is the identity. -/
theorem Vec3_add_sub_cancel (p q : Vec3) : p.add (q.sub p) = q := by
  simp [Vec3.add, Vec3.sub]

/-- Writing a position equal to the current one leaves it unchanged under
every axis-lock combination. -/
theorem updatePosition_self (eX eY eZ : Bool) (p : Vec3) :
    updatePosition eX eY eZ p p = p := by
  cases eX <;> cases eY <;> cases eZ <;> simp [updatePosition]

/-- C4: for a single Direct interactor, capturing start values and solving
immediately with the interactor still at the same start point and
orientation returns exactly the pre-grab world position — no positional pop
at time of grab — for every rotation and translation flag and axis-lock
combination. -/
theorem C4_no_pop_at_grab_single_direct (canRotateFlag enableTranslationFlag eX eY eZ : Bool)
    (world : TransformQ) (startPoint : Vec3) (orientation : Quaternion ℚ)
    (hq : orientation ≠ 0) (hw : world.rotation ≠ 0) :
    grabThenSolveSingleDirect canRotateFlag enableTranslationFlag eX eY eZ
        world startPoint orientation
      = world.position := by
  have h1 : orientation * (orientation⁻¹ * world.rotation) * world.rotation⁻¹ = 1 := by
    rw [← mul_assoc, mul_inv_cancel₀ hq, one_mul, mul_inv_cancel₀ hw]
  unfold grabThenSolveSingleDirect updateStartValuesSingleDirect
    singleInteractorTransformDirectPosition limitQuatRotation
  cases canRotateFlag <;> cases enableTranslationFlag <;>
    simp [h1, quatMulVec3_one, Vec3_add_sub_cancel, updatePosition_self]

/-- Witness for C4: a concrete grab at start point (4,5,6) of an object at
(1,2,3) with identity orientations solves back to (1,2,3). -/
theorem C4_no_pop_at_grab_single_direct_witness :
    ((1 : Quaternion ℚ) ≠ 0) ∧
    grabThenSolveSingleDirect true true true true true
        ⟨⟨1, 2, 3⟩, 1⟩ ⟨4, 5, 6⟩ 1 = Vec3.mk 1 2 3 :=
  ⟨one_ne_zero,
    C4_no_pop_at_grab_single_direct true true true true true
      ⟨⟨1, 2, 3⟩, 1⟩ ⟨4, 5, 6⟩ 1 one_ne_zero one_ne_zero⟩

/-- C8, as stated, is false on the code: in `dualInteractorsTransform` an
interactor with a null direction (hence invalid) but a present start point
does not skip the frame — after the error log the rotation, translation and
scale updates are all applied. -/
theorem C8_counterexample :
    InteractableManipulation.isInteractorValid missingDirectionSnapshot = false ∧
    InteractableManipulation.dualInteractorsTransformWrites ⟨true, true, true, true⟩
        validSnapshot missingDirectionSnapshot 10
      = [InteractableManipulation.WAction.writeRotation,
         InteractableManipulation.WAction.writePosition,
         InteractableManipulation.WAction.writeScale,
         InteractableManipulation.WAction.scaleUpdateEvent] ∧
    InteractableManipulation.dualInteractorsTransformWrites ⟨true, true, true, true⟩
        validSnapshot missingDirectionSnapshot 10 ≠ [] := by
  decide

/-- C8 amended: the single-interactor solver skips the frame entirely (no
position, rotation or scale write) whenever any required snapshot field is
missing, and the dual-interactor solver skips the frame exactly when a
start point is null; an invalid field other than a start point does not
stop the dual frame. -/
theorem C8_single_skips_dual_skips_only_on_null_start_point
    (c : MConfig) (isDirect : Bool) (i i1 i2 : InteractableManipulation.Snapshot) (d0 : ℚ)
    (hi : InteractableManipulation.isInteractorValid i = false)
    (hsp : (i1.startPoint.isNone || i2.startPoint.isNone) = true) :
    InteractableManipulation.singleInteractorTransformWrites c isDirect i = [] ∧
    InteractableManipulation.dualInteractorsTransformWrites c i1 i2 d0 = [] := by
  constructor
  · simp [InteractableManipulation.singleInteractorTransformWrites, hi]
  · simp [InteractableManipulation.dualInteractorsTransformWrites, hsp]

/-- Witness for the amended C8: a missing direction empties the single
frame and a missing start point empties the dual frame. -/
theorem C8_single_skips_dual_skips_only_on_null_start_point_witness :
    (InteractableManipulation.isInteractorValid missingDirectionSnapshot = false) ∧
    ((noStartPointSnapshot.startPoint.isNone || validSnapshot.startPoint.isNone) = true) ∧
    (InteractableManipulation.singleInteractorTransformWrites ⟨true, true, true, true⟩ true
        missingDirectionSnapshot = [] ∧
      InteractableManipulation.dualInteractorsTransformWrites ⟨true, true, true, true⟩
        noStartPointSnapshot validSnapshot 10 = []) :=
  ⟨by decide, by decide,
    C8_single_skips_dual_skips_only_on_null_start_point ⟨true, true, true, true⟩ true
      missingDirectionSnapshot noStartPointSnapshot validSnapshot 10 (by decide) (by decide)⟩


end XRL
